import Mathlib

/-!
Shallow embedding of the NM-Kanban backend (`cmd/main.go`) and proofs about
its behaviour.  The Go handlers act on a relational store (PostgreSQL); the
embedding represents the store as lists of rows and each handler as a pure
function from the store (plus the request data) to the updated store and the
HTTP status code it answers with.  Storage/transport failures (broken
connections, failed commits) are not modelled: every query sees the rows that
are actually in the store, and every commit succeeds, which matches the
non-error execution paths of the Go code.  Timestamps are modelled as natural
numbers where the code depends on them (`boards.created_at`); columns whose
values no claim depends on (card timestamps, avatars) are omitted.
-/

namespace NM

/-- Row of the `boards` table (Go struct `Board`). -/
structure Board where
  id : Nat
  title : String
  description : String
  ownerId : String
  createdAt : Nat
  color : String
  isPublic : Bool
deriving Repr, DecidableEq

/-- Row of the `columns` table (Go struct `Column`).  Positions are Go `int`s,
modelled as `Int`. -/
structure Column where
  id : Nat
  boardId : Nat
  title : String
  position : Int
  color : String
deriving Repr, DecidableEq

/-- Row of the `cards` table (Go struct `Card`). -/
structure Card where
  id : Nat
  columnId : Nat
  title : String
  description : String
  assignedTo : String
  priority : String
  dueDate : Option Nat
  position : Int
deriving Repr, DecidableEq

/-- Row of the `board_memberships` table. -/
structure BoardMembership where
  boardId : Nat
  userId : String
deriving Repr, DecidableEq

/-- Row of the `board_invitations` table (Go struct `BoardInvitation`). -/
structure Invitation where
  id : Nat
  boardId : Nat
  inviterId : String
  inviteeId : String
  status : String
deriving Repr, DecidableEq

/-- Row of the `notifications` table (Go struct `Notification`).  The serial
`id` column is never read back by the handlers modelled here, so it is not
modelled. -/
structure NotificationRow where
  userId : String
  type : String
  message : String
  relatedBoardId : Option Nat
  relatedCardId : Option Nat
  invitationId : Option Nat
deriving Repr, DecidableEq

/-- Row of Supabase's `auth.users` table as read by the handlers:
`raw_user_meta_data->>'username'` is `none` when the JSON field is absent
(SQL `NULL`). -/
structure AuthUser where
  id : String
  email : String
  username : Option String
deriving Repr, DecidableEq

/-- The durable store.  `nextId` models the serial id generators: every row id
already present is smaller than it, and inserts that return an id hand out
`nextId` and bump it. -/
structure DB where
  boards : List Board
  columns : List Column
  cards : List Card
  memberships : List BoardMembership
  invitations : List Invitation
  notifications : List NotificationRow
  users : List AuthUser
  nextId : Nat
deriving Repr, DecidableEq

/-- The store with no rows. -/
def emptyDB : DB :=
  { boards := [], columns := [], cards := [], memberships := [],
    invitations := [], notifications := [], users := [], nextId := 1 }

/-- `SELECT MAX(x) FROM ...`: `none` is the SQL `NULL` returned on an empty
row set. -/
def listMax? : List Int → Option Int
  | [] => none
  | x :: xs =>
    match listMax? xs with
    | none => some x
    | some m => some (max x m)

/-- Result of scanning `MAX(position)` into a Go `sql.NullInt64` and adding 1,
as `createColumn` and `createCard` do: a NULL max scans to `Int64 = 0`, so an
empty parent yields `0 + 1 = 1`. -/
def nextPositionScan (ps : List Int) : Int :=
  (listMax? ps).getD 0 + 1

/-- `getBoardIDFromColumn`: `SELECT board_id FROM columns WHERE id = $1`. -/
def getBoardIDFromColumn (db : DB) (columnID : Nat) : Option Nat :=
  (db.columns.find? (fun c => c.id == columnID)).map (fun c => c.boardId)

/-- `getBoardIDFromCard`: join of `columns` and `cards` on
`columns.id = cards.column_id` filtered by the card id. -/
def getBoardIDFromCard (db : DB) (cardID : Nat) : Option Nat :=
  match db.cards.find? (fun c => c.id == cardID) with
  | none => none
  | some card => (db.columns.find? (fun c => c.id == card.columnId)).map (fun c => c.boardId)

/-- `getUserIDByUsername`: `SELECT id FROM auth.users WHERE
raw_user_meta_data->>'username' = $1 OR email = $1 LIMIT 1`.  A SQL `NULL`
username never equals the parameter. -/
def getUserIDByUsername (db : DB) (username : String) : Option String :=
  (db.users.find? (fun u => u.username == some username || u.email == username)).map (fun u => u.id)

/-- The hard-coded `userDisplayNameMap` of display-name overrides keyed by
email. -/
def userDisplayNameMap : List (String × String) :=
  [("eduardo@kanban.local", "Eduardo Tomaz"),
   ("alison@kanban.local", "Alison Silva"),
   ("marques@kanban.local", "Gabriel Marques"),
   ("rosa@kanban.local", "Gabriel Rosa"),
   ("miyake@kanban.local", "João Miyake"),
   ("gomes@kanban.local", "João Gomes"),
   ("rodrigo@kanban.local", "Rodrigo Akira"),
   ("rubens@kanban.local", "Rubens Leite"),
   ("kaiky@kanban.local", "Kaiky Leandro"),
   ("pedro@kanban.local", "Pedro Santos")]

/-- `getDisplayName`: looks the user up in `auth.users`; a missing row
degrades to the generic placeholder, then the override map, the profile
username and the email are preferred in that order. -/
def getDisplayName (db : DB) (userID : String) : String :=
  match db.users.find? (fun u => u.id == userID) with
  | none => "Um usuário"
  | some u =>
    match userDisplayNameMap.lookup u.email with
    | some name => name
    | none =>
      match u.username with
      | some s => if s ≠ "" then s else u.email
      | none => u.email

/-- `checkBoardPermission`: reads `is_public`, then `owner_id`, then counts
membership rows.  A missing board yields `false` (denied). -/
def checkBoardPermission (db : DB) (userID : String) (boardID : Nat) : Bool :=
  match db.boards.find? (fun b => b.id == boardID) with
  | none => false
  | some b =>
    if b.isPublic then true
    else
      match db.boards.find? (fun b2 => b2.id == boardID) with
      | none => false
      | some b2 =>
        if b2.ownerId == userID then true
        else if 0 < (db.memberships.filter
            (fun m => m.boardId == boardID && m.userId == userID)).length then true
        else false

/-- Ascending insertion into a position-sorted column list (`ORDER BY
position`). -/
def insertByPosition (c : Column) : List Column → List Column
  | [] => [c]
  | d :: ds => if c.position ≤ d.position then c :: d :: ds else d :: insertByPosition c ds

/-- `ORDER BY position` over a column row set. -/
def sortByPosition (l : List Column) : List Column :=
  l.foldr insertByPosition []

/-- Descending insertion into a `created_at`-sorted board list. -/
def insertByCreatedDesc (b : Board) : List Board → List Board
  | [] => [b]
  | d :: ds => if d.createdAt ≤ b.createdAt then b :: d :: ds else d :: insertByCreatedDesc b ds

/-- `ORDER BY created_at DESC` over a board row set. -/
def sortByCreatedDesc (l : List Board) : List Board :=
  l.foldr insertByCreatedDesc []

/-- `getPublicBoards`: `SELECT ... FROM boards WHERE is_public = true ORDER BY
created_at DESC LIMIT 1`. -/
def getPublicBoards (db : DB) : List Board :=
  (sortByCreatedDesc (db.boards.filter (fun b => b.isPublic))).take 1

/-- Request body of `createBoard`. -/
structure BoardInput where
  title : String
  description : String
  color : String
  isPublic : Bool
deriving Repr, DecidableEq

/-- `createBoard`: inserts the board and the three seed columns
"A Fazer"/"Em Andamento"/"Concluído" at positions 0,1,2 in one transaction.
Returns the store, the status code, and the new board id (0 on rejection). -/
def createBoard (db : DB) (userID : String) (body : BoardInput) (now : Nat) : DB × Nat × Nat :=
  if body.title == "" then (db, 400, 0)
  else
    let bid := db.nextId
    let board : Board :=
      { id := bid, title := body.title, description := body.description,
        ownerId := userID, createdAt := now, color := body.color, isPublic := body.isPublic }
    let seedCols : List Column :=
      [{ id := bid + 1, boardId := bid, title := "A Fazer", position := 0, color := "#58a6ff" },
       { id := bid + 2, boardId := bid, title := "Em Andamento", position := 1, color := "#d29922" },
       { id := bid + 3, boardId := bid, title := "Concluído", position := 2, color := "#3fb950" }]
    ({ db with boards := db.boards ++ [board], columns := db.columns ++ seedCols,
               nextId := db.nextId + 4 }, 201, bid)

/-- Request body of `createColumn` (the Go handler parses a `Column` and reads
`board_id`, `title`, `color` from it; `position` is overwritten). -/
structure ColumnInput where
  boardId : Nat
  title : String
  color : String
deriving Repr, DecidableEq

/-- `createColumn`: rejects a zero `board_id`, otherwise inserts at
`MAX(position) + 1` over the board's columns (`nextPositionScan`).  There is
no permission check and no check that the board exists. -/
def createColumn (db : DB) (body : ColumnInput) : DB × Nat :=
  if body.boardId == 0 then (db, 400)
  else
    let pos := nextPositionScan ((db.columns.filter (fun c => c.boardId == body.boardId)).map
      (fun c => c.position))
    let col : Column :=
      { id := db.nextId, boardId := body.boardId, title := body.title,
        position := pos, color := body.color }
    ({ db with columns := db.columns ++ [col], nextId := db.nextId + 1 }, 201)

/-- `deleteColumn`: in one transaction, rejects (400) while any card is still
in the column, 404s when the column row is missing, otherwise deletes the row
and shifts `position - 1` onto every column of the same board with a greater
position.  There is no permission check. -/
def deleteColumn (db : DB) (columnID : Nat) : DB × Nat :=
  if 0 < (db.cards.filter (fun c => c.columnId == columnID)).length then (db, 400)
  else
    match db.columns.find? (fun c => c.id == columnID) with
    | none => (db, 404)
    | some col =>
      let cols1 := db.columns.filter (fun c => !(c.id == columnID))
      let cols2 := cols1.map (fun c =>
        if c.boardId == col.boardId && col.position < c.position
        then { c with position := c.position - 1 } else c)
      ({ db with columns := cols2 }, 200)

/-- Request body of `createCard`/`updateCard` (the card fields the handlers
copy out of the parsed body). -/
structure CardInput where
  title : String
  description : String
  assignedTo : String
  priority : String
  dueDate : Option Nat
deriving Repr, DecidableEq

/-- The `new_task_assigned` notification message. -/
def assignedMessage (title : String) : String :=
  "Você foi atribuído à tarefa: " ++ title

/-- `createCard`: resolves the column's board (404 if missing), checks board
permission (403), assigns position `MAX(position) + 1` over the column's cards
(`nextPositionScan`), inserts the card and, when `assigned_to` resolves to a
user, a `new_task_assigned` notification, all in one transaction. -/
def createCard (db : DB) (userID : String) (columnID : Nat) (body : CardInput) : DB × Nat :=
  match getBoardIDFromColumn db columnID with
  | none => (db, 404)
  | some boardID =>
    if !checkBoardPermission db userID boardID then (db, 403)
    else
      let pos := nextPositionScan ((db.cards.filter (fun c => c.columnId == columnID)).map
        (fun c => c.position))
      let card : Card :=
        { id := db.nextId, columnId := columnID, title := body.title,
          description := body.description, assignedTo := body.assignedTo,
          priority := body.priority, dueDate := body.dueDate, position := pos }
      let db1 := { db with cards := db.cards ++ [card], nextId := db.nextId + 1 }
      let db2 :=
        if body.assignedTo ≠ "" then
          match getUserIDByUsername db body.assignedTo with
          | some assigneeID =>
            { db1 with notifications := db1.notifications ++
                [{ userId := assigneeID, type := "new_task_assigned",
                   message := assignedMessage body.title,
                   relatedBoardId := some boardID, relatedCardId := some card.id,
                   invitationId := none }] }
          | none => db1
        else db1
      (db2, 201)

/-- `updateCard`: reads the prior `assigned_to` (404 when the card row is
missing), overwrites the card's fields, and inserts a `new_task_assigned`
notification when the assignee changed to a non-empty resolvable user, all in
one transaction.  There is no permission check. -/
def updateCard (db : DB) (cardID : Nat) (body : CardInput) : DB × Nat :=
  match db.cards.find? (fun c => c.id == cardID) with
  | none => (db, 404)
  | some oldCard =>
    let cards1 := db.cards.map (fun c =>
      if c.id == cardID then
        { c with title := body.title, description := body.description,
                 assignedTo := body.assignedTo, priority := body.priority,
                 dueDate := body.dueDate }
      else c)
    let db1 := { db with cards := cards1 }
    let db2 :=
      if body.assignedTo ≠ "" && body.assignedTo ≠ oldCard.assignedTo then
        match getBoardIDFromCard db cardID with
        | some boardID =>
          match getUserIDByUsername db body.assignedTo with
          | some assigneeID =>
            { db1 with notifications := db1.notifications ++
                [{ userId := assigneeID, type := "new_task_assigned",
                   message := assignedMessage body.title,
                   relatedBoardId := some boardID, relatedCardId := some cardID,
                   invitationId := none }] }
          | none => db1
        | none => db1
      else db1
    (db2, 200)

/-- `deleteCard`: resolves the board id with the error ignored (the Go handler
has an empty `if err != nil` block), deletes the rows matching the id, and
answers 200 `deleted` whether or not a card existed. -/
def deleteCard (db : DB) (cardID : Nat) : DB × Nat :=
  ({ db with cards := db.cards.filter (fun c => !(c.id == cardID)) }, 200)

/-- Request body of `reorderCards` (Go struct `ReorderPayload`).  It has no
numeric position field: the array index is the only position information. -/
structure ReorderPayload where
  columnID : Nat
  orderedCardIDs : List Nat
deriving Repr, DecidableEq

/-- One prepared-statement execution of the reorder loop: `UPDATE cards SET
position = $1, column_id = $2 WHERE id = $3`. -/
def reorderStep (columnID : Nat) (c : Card) (s : Nat × Nat) : Card :=
  if c.id == s.2 then { c with position := (s.1 : Int), columnId := columnID } else c

/-- `reorderCards`: under the column lock, for index `i` and card id
`orderedCardIDs[i]` sets `position = i` and `column_id = columnID`, then
commits.  Ids that match no row update nothing and raise no error. -/
def reorderCards (db : DB) (p : ReorderPayload) : DB × Nat :=
  let steps := p.orderedCardIDs.enum
  let cards1 := steps.foldl (fun cs s => cs.map (fun c => reorderStep p.columnID c s)) db.cards
  ({ db with cards := cards1 }, 200)

/-- Go's `strings.ToLower` on one character, restricted to the code points
reachable in this code base: ASCII capitals plus the accented Latin capitals
of the Portuguese column titles. -/
def goToLowerChar (c : Char) : Char :=
  if 'A' ≤ c ∧ c ≤ 'Z' then Char.ofNat (c.toNat + 32)
  else if c = 'Ã' then 'ã'
  else if c = 'Á' then 'á'
  else if c = 'Â' then 'â'
  else if c = 'À' then 'à'
  else if c = 'É' then 'é'
  else if c = 'Ê' then 'ê'
  else if c = 'Í' then 'í'
  else if c = 'Ó' then 'ó'
  else if c = 'Õ' then 'õ'
  else if c = 'Ô' then 'ô'
  else if c = 'Ú' then 'ú'
  else if c = 'Ç' then 'ç'
  else c

/-- Go's `strings.ToLower` (same restriction as `goToLowerChar`). -/
def goToLower (s : String) : String :=
  String.mk (s.data.map goToLowerChar)

/-- The column rows of a board as the handlers query them
(`WHERE board_id = $1 ORDER BY position`). -/
def boardColumnsSorted (db : DB) (boardID : Nat) : List Column :=
  sortByPosition (db.columns.filter (fun c => c.boardId == boardID))

/-- The scan loop of `getPublicBoardColumns`: whether some row's lowercased
title equals `t`. -/
def hasTitleCI (cols : List Column) (t : String) : Bool :=
  cols.any (fun c => goToLower c.title == t)

/-- The scan loop of `getPublicBoardColumns`: running maximum of the positions
starting from `-1`. -/
def maxColPosition (cols : List Column) : Int :=
  cols.foldl (fun m c => if m < c.position then c.position else m) (-1)

/-- `getPublicBoardColumns`: scans the board's columns, inserts a
"Solucionado" and/or "Não Solucionado" column (case-insensitive title match)
at successive `max+1` positions when missing, commits, and re-queries when it
inserted anything.  Returns the store, the status and the response rows. -/
def getPublicBoardColumns (db : DB) (boardID : Nat) : DB × Nat × List Column :=
  let cols := boardColumnsSorted db boardID
  let foundSolucionado := hasTitleCI cols "solucionado"
  let foundNaoSolucionado := hasTitleCI cols "não solucionado"
  let m := maxColPosition cols
  let step1 : DB × Int :=
    if foundSolucionado then (db, m)
    else ({ db with
            columns := db.columns ++
              [{ id := db.nextId, boardId := boardID, title := "Solucionado",
                 position := m + 1, color := "#3fb950" }],
            nextId := db.nextId + 1 }, m + 1)
  let step2 : DB × Int :=
    if foundNaoSolucionado then step1
    else ({ step1.1 with
            columns := step1.1.columns ++
              [{ id := step1.1.nextId, boardId := boardID, title := "Não Solucionado",
                 position := step1.2 + 1, color := "#f85149" }],
            nextId := step1.1.nextId + 1 }, step1.2 + 1)
  if !foundSolucionado || !foundNaoSolucionado then
    (step2.1, 200, boardColumnsSorted step2.1 boardID)
  else
    (step2.1, 200, cols)

/-- `getColumns`: checks board permission (403 when denied), reads `is_public`
with the scan error ignored (a missing row leaves the Go zero value `false`),
dispatches public boards to `getPublicBoardColumns`, and otherwise returns the
sorted rows without writing. -/
def getColumns (db : DB) (userID : String) (boardID : Nat) : DB × Nat × List Column :=
  if !checkBoardPermission db userID boardID then (db, 403, [])
  else
    let isPublic := ((db.boards.find? (fun b => b.id == boardID)).map
      (fun b => b.isPublic)).getD false
    if isPublic then getPublicBoardColumns db boardID
    else (db, 200, boardColumnsSorted db boardID)

/-- Ascending insertion into a position-sorted card list. -/
def insertCardByPosition (c : Card) : List Card → List Card
  | [] => [c]
  | d :: ds => if c.position ≤ d.position then c :: d :: ds else d :: insertCardByPosition c ds

/-- `ORDER BY position` over a card row set. -/
def sortCardsByPosition (l : List Card) : List Card :=
  l.foldr insertCardByPosition []

/-- `getCards`: resolves the column's board (404), checks board permission
(403), and returns the column's cards ordered by position without writing. -/
def getCards (db : DB) (userID : String) (columnID : Nat) : DB × Nat × List Card :=
  match getBoardIDFromColumn db columnID with
  | none => (db, 404, [])
  | some boardID =>
    if !checkBoardPermission db userID boardID then (db, 403, [])
    else (db, 200, sortCardsByPosition (db.cards.filter (fun c => c.columnId == columnID)))

/-- The exclusion check of `inviteUserToBoard`: `COUNT(*) > 0` over the union
of the board's owner, its members and its pending invitees, filtered to the
invitee. -/
def inviteExcluded (db : DB) (boardID : Nat) (inviteeID : String) : Bool :=
  db.boards.any (fun b => b.id == boardID && b.ownerId == inviteeID) ||
  db.memberships.any (fun m => m.boardId == boardID && m.userId == inviteeID) ||
  db.invitations.any (fun i =>
    i.boardId == boardID && i.inviteeId == inviteeID && i.status == "pending")

/-- `inviteUserToBoard`: answers 200 `invited_or_exists` without writing when
the invitee is already the owner, a member, or has a pending invitation;
otherwise inserts the pending invitation and the `board_invitation`
notification in one transaction and answers 201 `invited`. -/
def inviteUserToBoard (db : DB) (boardID : Nat) (inviterID inviteeID : String) :
    DB × Nat × String :=
  if inviteExcluded db boardID inviteeID then (db, 200, "invited_or_exists")
  else
    let invID := db.nextId
    let inv : Invitation :=
      { id := invID, boardId := boardID, inviterId := inviterID,
        inviteeId := inviteeID, status := "pending" }
    let boardTitle := ((db.boards.find? (fun b => b.id == boardID)).map
      (fun b => b.title)).getD ""
    let inviterName := getDisplayName db inviterID
    let notif : NotificationRow :=
      { userId := inviteeID, type := "board_invitation",
        message := inviterName ++ " convidou você para o quadro '" ++ boardTitle ++ "'",
        relatedBoardId := some boardID, relatedCardId := none,
        invitationId := some invID }
    ({ db with invitations := db.invitations ++ [inv],
               notifications := db.notifications ++ [notif],
               nextId := db.nextId + 1 }, 201, "invited")

/-- One mutating request of the kinds quantified over by the position
invariant: create/delete of a column or card, or a reorder. -/
inductive BoardOp where
  | createCol (body : ColumnInput)
  | deleteCol (columnID : Nat)
  | addCard (columnID : Nat) (body : CardInput)
  | delCard (cardID : Nat)
  | reorder (p : ReorderPayload)
deriving Repr, DecidableEq

/-- Dispatch of one request to its handler; `userID` is the authenticated
caller. -/
def applyOp (userID : String) (db : DB) (op : BoardOp) : DB × Nat :=
  match op with
  | .createCol body => createColumn db body
  | .deleteCol columnID => deleteColumn db columnID
  | .addCard columnID body => createCard db userID columnID body
  | .delCard cardID => deleteCard db cardID
  | .reorder p => reorderCards db p

/-- A sequence of requests each of which individually succeeded (status below
400), relating the store before to the store after. -/
inductive Steps (userID : String) : DB → List BoardOp → DB → Prop where
  | nil (db : DB) : Steps userID db [] db
  | cons (db db1 db2 : DB) (op : BoardOp) (ops : List BoardOp) (code : Nat) :
      applyOp userID db op = (db1, code) → code < 400 →
      Steps userID db1 ops db2 → Steps userID db (op :: ops) db2

/-- The column rows of a board in query order. -/
def boardCols (db : DB) (boardID : Nat) : List Column :=
  db.columns.filter (fun c => c.boardId == boardID)

/-- The positions of a column's cards. -/
def cardPositions (db : DB) (columnID : Nat) : List Int :=
  (db.cards.filter (fun c => c.columnId == columnID)).map (fun c => c.position)

/-- The positions of a board's columns. -/
def colPositions (db : DB) (boardID : Nat) : List Int :=
  (boardCols db boardID).map (fun c => c.position)

/-- `{0, 1, ..., n-1}` as the reference position multiset of a dense parent
with `n` children. -/
def denseRange (n : Nat) : List Int :=
  (List.range n).map (fun i => (i : Int))

/-- Well-formedness of the column table that the serial id generator
guarantees: column ids are pairwise distinct and below `nextId`. -/
def ColsWF (db : DB) : Prop :=
  (db.columns.map (fun c => c.id)).Nodup ∧ ∀ c ∈ db.columns, c.id < db.nextId

/-- The positions of a board's columns are pairwise distinct. -/
def DistinctColPositions (db : DB) (boardID : Nat) : Prop :=
  (boardCols db boardID).Pairwise (fun c d => c.position ≠ d.position)

/-- A create-board request body used by the concrete scenarios. -/
def exBoardInput : BoardInput :=
  { title := "Support", description := "", color := "#58a6ff", isPublic := false }

/-- A card request body with no assignee used by the concrete scenarios. -/
def exCardInput : CardInput :=
  { title := "Ticket", description := "", assignedTo := "", priority := "media", dueDate := none }

/-- The store right after user `"u"` created a board on an empty store:
board 1 with seed columns 2, 3, 4 at positions 0, 1, 2. -/
def freshDB : DB := (createBoard emptyDB "u" exBoardInput 5).1

/-- Store for the C4 scenario: the fresh board, whose columns hold no cards. -/
def c4DB : DB := freshDB

/-- Store for the C5 scenario: the fresh board with one card in column 2. -/
def c5DB : DB := (createCard freshDB "u" 2 exCardInput).1

/-- Store for the C6 scenario: the fresh private board 1 owned by `"u"`. -/
def c6DB : DB := freshDB

/-- Store for the C7/C10 witness scenarios: a private board 1 owned by
`"alice"` with member `"bob"`, and public boards 2 and 3. -/
def c7DB : DB :=
  { emptyDB with
    boards :=
      [{ id := 1, title := "Priv", description := "", ownerId := "alice",
         createdAt := 10, color := "c", isPublic := false },
       { id := 2, title := "Pub", description := "", ownerId := "alice",
         createdAt := 20, color := "c", isPublic := true },
       { id := 3, title := "Pub2", description := "", ownerId := "alice",
         createdAt := 30, color := "c", isPublic := true }],
    memberships := [{ boardId := 1, userId := "bob" }],
    nextId := 4 }

/-- Store for the C8 scenario: the fresh board, no cards at all. -/
def c8DB : DB := freshDB

/-- Store for the C3 scenario: one card (id 7) sitting in column 5 at
position 9. -/
def c3DB : DB :=
  { emptyDB with
    cards := [{ id := 7, columnId := 5, title := "A", description := "",
                assignedTo := "", priority := "media", dueDate := none, position := 9 }],
    nextId := 8 }

/-- A reorder request that names card 7 twice. -/
def c3DupPayload : ReorderPayload := { columnID := 5, orderedCardIDs := [7, 7] }

/-- A duplicate-free reorder request naming card 7 once. -/
def c3Payload : ReorderPayload := { columnID := 5, orderedCardIDs := [7] }

/-- C2 scenario A: one card created in the fresh board's empty column 2. -/
def c2dbA : DB := (applyOp "u" freshDB (BoardOp.addCard 2 exCardInput)).1

/-- C2 scenario B: delete all three seed columns, then create a new one. -/
def c2ColOps : List BoardOp :=
  [BoardOp.deleteCol 2, BoardOp.deleteCol 3, BoardOp.deleteCol 4,
   BoardOp.createCol { boardId := 1, title := "Extra", color := "c" }]

/-- C2 scenario B after the first delete. -/
def c2dbB1 : DB := (applyOp "u" freshDB (BoardOp.deleteCol 2)).1

/-- C2 scenario B after the second delete. -/
def c2dbB2 : DB := (applyOp "u" c2dbB1 (BoardOp.deleteCol 3)).1

/-- C2 scenario B after the third delete. -/
def c2dbB3 : DB := (applyOp "u" c2dbB2 (BoardOp.deleteCol 4)).1

/-- C2 scenario B final store: board 1 has one column at position 1. -/
def c2dbB : DB :=
  (applyOp "u" c2dbB3 (BoardOp.createCol { boardId := 1, title := "Extra", color := "c" })).1

/-- Store for the C1 scenario: a private board 1 owned by `"alice"` with no
members, one column 2, one card 3. -/
def c1DB : DB :=
  { emptyDB with
    boards := [{ id := 1, title := "Priv", description := "", ownerId := "alice",
                 createdAt := 0, color := "c", isPublic := false }],
    columns := [{ id := 2, boardId := 1, title := "Col", position := 0, color := "c" }],
    cards := [{ id := 3, columnId := 2, title := "Secret", description := "",
                assignedTo := "", priority := "media", dueDate := none, position := 5 }],
    nextId := 4 }

/-- The card body an outsider submits in the C1 scenario. -/
def c1Body : CardInput :=
  { title := "hacked", description := "", assignedTo := "", priority := "media",
    dueDate := none }

/-- Store for the C9 scenario: a public board 1 with one column, lacking both
status columns. -/
def c9DB : DB :=
  { emptyDB with
    boards := [{ id := 1, title := "Triage", description := "", ownerId := "o",
                 createdAt := 0, color := "c", isPublic := true }],
    columns := [{ id := 9, boardId := 1, title := "Entrada", position := 0, color := "c" }],
    nextId := 10 }

theorem listMax?_eq_none_iff (l : List Int) : listMax? l = none ↔ l = [] := by
  cases l with
  | nil => simp [listMax?]
  | cons x xs => cases h : listMax? xs <;> simp [listMax?, h]

theorem le_listMax? (l : List Int) (x m : Int) (hx : x ∈ l) (hm : listMax? l = some m) :
    x ≤ m := by
  induction l generalizing m with
  | nil => simp at hx
  | cons a t ih =>
    rcases List.mem_cons.mp hx with rfl | hxt
    · cases h : listMax? t with
      | none => simp [listMax?, h] at hm; omega
      | some mt => simp [listMax?, h] at hm; subst hm; exact le_max_left _ _
    · cases h : listMax? t with
      | none =>
        rw [listMax?_eq_none_iff] at h
        subst h; simp at hxt
      | some mt =>
        have hle := ih mt hxt h
        simp [listMax?, h] at hm
        subst hm
        exact hle.trans (le_max_right _ _)

theorem createCard_success (db : DB) (userID : String) (columnID boardID : Nat)
    (body : CardInput)
    (hcol : getBoardIDFromColumn db columnID = some boardID)
    (hperm : checkBoardPermission db userID boardID = true) :
    (createCard db userID columnID body).2 = 201 ∧
    (createCard db userID columnID body).1.cards = db.cards ++
      [{ id := db.nextId, columnId := columnID, title := body.title,
         description := body.description, assignedTo := body.assignedTo,
         priority := body.priority, dueDate := body.dueDate,
         position := nextPositionScan (cardPositions db columnID) }] := by
  unfold createCard
  rw [hcol]
  simp only [hperm, Bool.not_true, Bool.false_eq_true, if_false]
  constructor
  · trivial
  · split
    · split <;> rfl
    · rfl

/-- C4: a create-card request assigns position `MAX(existing) + 1` when the
column already has cards; when the column is empty it assigns position 1, not
0, because the SQL `NULL` max scans into a zero `sql.NullInt64` that is then
incremented. -/
theorem C4_amended (db : DB) (userID : String) (columnID boardID : Nat) (body : CardInput)
    (hcol : getBoardIDFromColumn db columnID = some boardID)
    (hperm : checkBoardPermission db userID boardID = true) :
    ∃ newCard : Card,
      (createCard db userID columnID body).1.cards = db.cards ++ [newCard] ∧
      (createCard db userID columnID body).2 = 201 ∧
      (cardPositions db columnID = [] → newCard.position = 1) ∧
      (∀ m, listMax? (cardPositions db columnID) = some m → newCard.position = m + 1) := by
  rcases createCard_success db userID columnID boardID body hcol hperm with ⟨h201, hcards⟩
  refine ⟨_, hcards, h201, ?_, ?_⟩
  · intro hnil
    show nextPositionScan (cardPositions db columnID) = 1
    rw [nextPositionScan, hnil]
    rfl
  · intro m hm
    show nextPositionScan (cardPositions db columnID) = m + 1
    rw [nextPositionScan, hm]
    rfl

/-- C4 fails as stated: on the fresh board's empty column 2, the created card
receives position 1, not 0. -/
theorem C4_counterexample :
    cardPositions c4DB 2 = [] ∧
    cardPositions (createCard c4DB "u" 2 exCardInput).1 2 = [1] ∧
    (1 : Int) ≠ 0 := by
  refine ⟨rfl, rfl, by decide⟩

/-- C4 witness: the amended statement evaluated on the fresh board. -/
theorem C4_witness :
    ∃ newCard : Card,
      (createCard c4DB "u" 2 exCardInput).1.cards = c4DB.cards ++ [newCard] ∧
      (createCard c4DB "u" 2 exCardInput).2 = 201 ∧
      (cardPositions c4DB 2 = [] → newCard.position = 1) ∧
      (∀ m, listMax? (cardPositions c4DB 2) = some m → newCard.position = m + 1) :=
  C4_amended c4DB "u" 2 1 exCardInput (by decide) (by decide)

/-- C5: deleting a column that still holds a card is rejected with the
conflict error and changes nothing; deleting an empty column succeeds, leaves
boards and cards untouched, removes the column, and decrements the position of
exactly the same board's columns that sat after it. -/
theorem C5_theorem (db : DB) (columnID : Nat) (col : Column)
    (hfind : db.columns.find? (fun c => c.id == columnID) = some col) :
    (0 < (db.cards.filter (fun c => c.columnId == columnID)).length →
      deleteColumn db columnID = (db, 400)) ∧
    ((db.cards.filter (fun c => c.columnId == columnID)).length = 0 →
      (deleteColumn db columnID).2 = 200 ∧
      (deleteColumn db columnID).1.cards = db.cards ∧
      (deleteColumn db columnID).1.boards = db.boards ∧
      (∀ c ∈ db.columns, c.id ≠ columnID →
        (if c.boardId == col.boardId && col.position < c.position
         then { c with position := c.position - 1 } else c) ∈
          (deleteColumn db columnID).1.columns) ∧
      (∀ c ∈ (deleteColumn db columnID).1.columns, c.id ≠ columnID)) := by
  constructor
  · intro hpos
    unfold deleteColumn
    rw [if_pos hpos]
  · intro hzero
    have hnot : ¬ 0 < (db.cards.filter (fun c => c.columnId == columnID)).length := by omega
    unfold deleteColumn
    rw [if_neg hnot, hfind]
    refine ⟨rfl, rfl, rfl, ?_, ?_⟩
    · intro c hc hne
      simp only
      apply List.mem_map_of_mem
      apply List.mem_filter.mpr
      refine ⟨hc, ?_⟩
      simp [hne]
    · intro c hc
      simp only at hc
      rcases List.mem_map.mp hc with ⟨c0, hc0, hback⟩
      have h0 : c0.id ≠ columnID := by
        have := (List.mem_filter.mp hc0).2
        simpa using this
      have hid : c.id = c0.id := by
        subst hback
        split <;> rfl
      rw [hid]
      exact h0

/-- C5 witness: both branches evaluated on the fresh board — column 2 holds a
card and is protected, column 3 is empty and deletable. -/
theorem C5_witness :
    deleteColumn c5DB 2 = (c5DB, 400) ∧ (deleteColumn c5DB 3).2 = 200 := by
  refine ⟨?_, ?_⟩
  · exact (C5_theorem c5DB 2
      { id := 2, boardId := 1, title := "A Fazer", position := 0, color := "#58a6ff" }
      (by decide)).1 (by decide)
  · exact ((C5_theorem c5DB 3
      { id := 3, boardId := 1, title := "Em Andamento", position := 1, color := "#d29922" }
      (by decide)).2 (by decide)).1

/-- C6: an invite whose invitee is already the owner, already a member, or
already has a pending invitation for the board changes nothing — no invitation
row, no notification — and answers the non-error `invited_or_exists` status. -/
theorem C6_theorem (db : DB) (boardID : Nat) (inviterID inviteeID : String)
    (h : (∃ b ∈ db.boards, b.id = boardID ∧ b.ownerId = inviteeID) ∨
         (∃ m ∈ db.memberships, m.boardId = boardID ∧ m.userId = inviteeID) ∨
         (∃ i ∈ db.invitations,
            i.boardId = boardID ∧ i.inviteeId = inviteeID ∧ i.status = "pending")) :
    inviteUserToBoard db boardID inviterID inviteeID = (db, 200, "invited_or_exists") := by
  have hex : inviteExcluded db boardID inviteeID = true := by
    unfold inviteExcluded
    simp only [Bool.or_eq_true, List.any_eq_true]
    rcases h with ⟨b, hb, h1, h2⟩ | ⟨m, hm, h1, h2⟩ | ⟨i, hi, h1, h2, h3⟩
    · exact Or.inl (Or.inl ⟨b, hb, by simp [h1, h2]⟩)
    · exact Or.inl (Or.inr ⟨m, hm, by simp [h1, h2]⟩)
    · exact Or.inr ⟨i, hi, by simp [h1, h2, h3]⟩
  unfold inviteUserToBoard
  rw [if_pos hex]

/-- C6 witness: inviting the owner of the fresh board back onto it is a
no-op. -/
theorem C6_witness :
    inviteUserToBoard c6DB 1 "u" "u" = (c6DB, 200, "invited_or_exists") :=
  C6_theorem c6DB 1 "u" "u"
    (Or.inl ⟨{ id := 1, title := "Support", description := "", ownerId := "u",
               createdAt := 5, color := "#58a6ff", isPublic := false },
             by decide, rfl, rfl⟩)

/-- C7: permission resolution denies a missing board, allows any user on a
public board, allows the owner, allows any user holding a membership row, and
denies everyone else. -/
theorem C7_theorem (db : DB) (userID : String) (boardID : Nat) :
    (db.boards.find? (fun b => b.id == boardID) = none →
      checkBoardPermission db userID boardID = false) ∧
    (∀ b, db.boards.find? (fun b => b.id == boardID) = some b → b.isPublic = true →
      checkBoardPermission db userID boardID = true) ∧
    (∀ b, db.boards.find? (fun b => b.id == boardID) = some b → b.ownerId = userID →
      checkBoardPermission db userID boardID = true) ∧
    (∀ b, db.boards.find? (fun b => b.id == boardID) = some b →
      (∃ m ∈ db.memberships, m.boardId = boardID ∧ m.userId = userID) →
      checkBoardPermission db userID boardID = true) ∧
    (∀ b, db.boards.find? (fun b => b.id == boardID) = some b → b.isPublic = false →
      b.ownerId ≠ userID →
      (∀ m ∈ db.memberships, ¬(m.boardId = boardID ∧ m.userId = userID)) →
      checkBoardPermission db userID boardID = false) := by
  refine ⟨?_, ?_, ?_, ?_, ?_⟩
  · intro hnone
    unfold checkBoardPermission
    rw [hnone]
  · intro b hb hpub
    unfold checkBoardPermission
    rw [hb]
    simp [hpub]
  · intro b hb hown
    unfold checkBoardPermission
    rw [hb]
    by_cases hpub : b.isPublic
    · simp [hpub]
    · simp only [hpub, Bool.false_eq_true, if_false]
      simp [hown]
  · intro b hb hmem
    rcases hmem with ⟨m, hm, h1, h2⟩
    unfold checkBoardPermission
    rw [hb]
    by_cases hpub : b.isPublic
    · simp [hpub]
    · simp only [hpub, Bool.false_eq_true, if_false]
      by_cases hown : b.ownerId = userID
      · simp [hown]
      · have hlen : 0 < (db.memberships.filter
            (fun m => m.boardId == boardID && m.userId == userID)).length := by
          rw [List.length_pos_iff_exists_mem]
          exact ⟨m, List.mem_filter.mpr ⟨hm, by simp [h1, h2]⟩⟩
        simp [hown, hlen]
  · intro b hb hpub hown hmem
    unfold checkBoardPermission
    rw [hb]
    simp only [hpub, Bool.false_eq_true, if_false]
    have hlen : ¬ 0 < (db.memberships.filter
        (fun m => m.boardId == boardID && m.userId == userID)).length := by
      rw [List.length_pos_iff_exists_mem]
      rintro ⟨m, hm⟩
      rcases List.mem_filter.mp hm with ⟨hm1, hm2⟩
      simp only [Bool.and_eq_true, beq_iff_eq] at hm2
      exact hmem m hm1 hm2
    simp [hown, hlen]

/-- C7 witness: the five resolution cases evaluated on a store with a private
board (owner `"alice"`, member `"bob"`) and a public board. -/
theorem C7_witness :
    checkBoardPermission c7DB "x" 9 = false ∧
    checkBoardPermission c7DB "stranger" 2 = true ∧
    checkBoardPermission c7DB "alice" 1 = true ∧
    checkBoardPermission c7DB "bob" 1 = true ∧
    checkBoardPermission c7DB "stranger" 1 = false := by
  refine ⟨?_, ?_, ?_, ?_, ?_⟩
  · exact (C7_theorem c7DB "x" 9).1 (by decide)
  · exact (C7_theorem c7DB "stranger" 2).2.1
      { id := 2, title := "Pub", description := "", ownerId := "alice",
        createdAt := 20, color := "c", isPublic := true } (by decide) rfl
  · exact (C7_theorem c7DB "alice" 1).2.2.1
      { id := 1, title := "Priv", description := "", ownerId := "alice",
        createdAt := 10, color := "c", isPublic := false } (by decide) rfl
  · exact (C7_theorem c7DB "bob" 1).2.2.2.1
      { id := 1, title := "Priv", description := "", ownerId := "alice",
        createdAt := 10, color := "c", isPublic := false } (by decide)
      ⟨{ boardId := 1, userId := "bob" }, by decide, rfl, rfl⟩
  · exact (C7_theorem c7DB "stranger" 1).2.2.2.2
      { id := 1, title := "Priv", description := "", ownerId := "alice",
        createdAt := 10, color := "c", isPublic := false } (by decide) rfl
      (by decide) (by decide)

/-- C8 fails as stated: deleting a card id that resolves to no card answers
the success status 200 `deleted`, not a not-found rejection. -/
theorem C8_counterexample :
    c8DB.cards.filter (fun c => c.id == 999) = [] ∧
    deleteCard c8DB 999 = (c8DB, 200) ∧
    (200 : Nat) ≠ 404 := by
  refine ⟨rfl, by decide, by decide⟩

/-- C8: a delete-card request whose id matches no card leaves the store
unchanged and answers 200 `deleted` — the delete is idempotent, never a
not-found rejection. -/
theorem C8_amended (db : DB) (cardID : Nat) (h : ∀ c ∈ db.cards, c.id ≠ cardID) :
    deleteCard db cardID = (db, 200) := by
  unfold deleteCard
  have : db.cards.filter (fun c => !(c.id == cardID)) = db.cards := by
    apply List.filter_eq_self.mpr
    intro c hc
    simp [h c hc]
  rw [this]

/-- C8 witness: the amended statement evaluated at card id 999 on the fresh
board. -/
theorem C8_witness : deleteCard c8DB 999 = (c8DB, 200) :=
  C8_amended c8DB 999 (by decide)

theorem length_insertByCreatedDesc (b : Board) (l : List Board) :
    (insertByCreatedDesc b l).length = l.length + 1 := by
  induction l with
  | nil => rfl
  | cons d ds ih =>
    unfold insertByCreatedDesc
    split
    · rfl
    · simp [ih]

theorem length_sortByCreatedDesc (l : List Board) :
    (sortByCreatedDesc l).length = l.length := by
  induction l with
  | nil => rfl
  | cons d ds ih => simp [sortByCreatedDesc, List.foldr, length_insertByCreatedDesc]
                    simpa [sortByCreatedDesc] using ih

theorem mem_insertByCreatedDesc (a b : Board) (l : List Board) :
    a ∈ insertByCreatedDesc b l ↔ a = b ∨ a ∈ l := by
  induction l with
  | nil => simp [insertByCreatedDesc]
  | cons d ds ih =>
    unfold insertByCreatedDesc
    split
    · simp [or_comm, or_assoc, or_left_comm]
    · simp [ih]
      tauto

theorem mem_sortByCreatedDesc (a : Board) (l : List Board) :
    a ∈ sortByCreatedDesc l ↔ a ∈ l := by
  induction l with
  | nil => simp [sortByCreatedDesc]
  | cons d ds ih =>
    show a ∈ insertByCreatedDesc d (sortByCreatedDesc ds) ↔ _
    rw [mem_insertByCreatedDesc]
    simp [ih]

theorem sortByCreatedDesc_head_max (l : List Board) (r : Board) (rest : List Board)
    (h : sortByCreatedDesc l = r :: rest) :
    ∀ x ∈ l, x.createdAt ≤ r.createdAt := by
  induction l generalizing r rest with
  | nil => simp [sortByCreatedDesc] at h
  | cons a t ih =>
    have hs : sortByCreatedDesc (a :: t) = insertByCreatedDesc a (sortByCreatedDesc t) := rfl
    rw [hs] at h
    cases hst : sortByCreatedDesc t with
    | nil =>
      have ht : t.length = 0 := by
        have := length_sortByCreatedDesc t
        rw [hst] at this
        simpa using this.symm
      have ht' : t = [] := List.length_eq_zero.mp ht
      subst ht'
      rw [hst] at h
      unfold insertByCreatedDesc at h
      injection h with h1 _
      subst h1
      simp
    | cons r' rest' =>
      rw [hst] at h
      have ihr : ∀ x ∈ t, x.createdAt ≤ r'.createdAt := fun x hx => ih r' rest' hst x hx
      unfold insertByCreatedDesc at h
      by_cases hc : r'.createdAt ≤ a.createdAt
      · rw [if_pos hc] at h
        injection h with h1 _
        subst h1
        intro x hx
        rcases List.mem_cons.mp hx with rfl | hxt
        · exact le_refl _
        · exact (ihr x hxt).trans hc
      · rw [if_neg hc] at h
        injection h with h1 _
        subst h1
        intro x hx
        rcases List.mem_cons.mp hx with rfl | hxt
        · omega
        · exact ihr x hxt

/-- C10: the public-boards listing returns at most one row, and whenever any
public board exists it returns exactly one — a public board whose creation
time is maximal among all public boards (the `LIMIT 1` of the most recent
one). -/
theorem C10_theorem (db : DB) :
    (getPublicBoards db).length ≤ 1 ∧
    (∀ b ∈ db.boards, b.isPublic = true →
      ∃ r, getPublicBoards db = [r] ∧ r ∈ db.boards ∧ r.isPublic = true ∧
        ∀ b2 ∈ db.boards, b2.isPublic = true → b2.createdAt ≤ r.createdAt) := by
  constructor
  · unfold getPublicBoards
    rw [List.length_take]
    omega
  · intro b hb hpub
    have hbf : b ∈ db.boards.filter (fun x => x.isPublic) :=
      List.mem_filter.mpr ⟨hb, hpub⟩
    cases hst : sortByCreatedDesc (db.boards.filter (fun x => x.isPublic)) with
    | nil =>
      exfalso
      have := (mem_sortByCreatedDesc b _).mpr hbf
      rw [hst] at this
      simp at this
    | cons r rest =>
      refine ⟨r, ?_, ?_, ?_, ?_⟩
      · unfold getPublicBoards
        rw [hst]
        rfl
      · have : r ∈ sortByCreatedDesc (db.boards.filter (fun x => x.isPublic)) := by
          rw [hst]; exact List.mem_cons_self _ _
        exact (List.mem_filter.mp ((mem_sortByCreatedDesc r _).mp this)).1
      · have : r ∈ sortByCreatedDesc (db.boards.filter (fun x => x.isPublic)) := by
          rw [hst]; exact List.mem_cons_self _ _
        exact (List.mem_filter.mp ((mem_sortByCreatedDesc r _).mp this)).2
      · intro b2 hb2 hpub2
        exact sortByCreatedDesc_head_max _ r rest hst b2 (List.mem_filter.mpr ⟨hb2, hpub2⟩)

theorem reorder_foldl_map (columnID : Nat) (steps : List (Nat × Nat)) (cards : List Card) :
    steps.foldl (fun cs s => cs.map (fun c => reorderStep columnID c s)) cards =
    cards.map (fun c => steps.foldl (fun c s => reorderStep columnID c s) c) := by
  induction steps generalizing cards with
  | nil => simp
  | cons s t ih =>
    rw [List.foldl_cons, ih, List.map_map]
    rfl

theorem reorderStep_id (columnID : Nat) (c : Card) (s : Nat × Nat) :
    (reorderStep columnID c s).id = c.id := by
  unfold reorderStep
  split <;> rfl

theorem foldCard_id (columnID : Nat) (steps : List (Nat × Nat)) (c : Card) :
    (steps.foldl (fun c s => reorderStep columnID c s) c).id = c.id := by
  induction steps generalizing c with
  | nil => rfl
  | cons s t ih => rw [List.foldl_cons, ih, reorderStep_id]

theorem foldCard_skip (columnID : Nat) (steps : List (Nat × Nat)) (c : Card)
    (h : ∀ s ∈ steps, s.2 ≠ c.id) :
    steps.foldl (fun c s => reorderStep columnID c s) c = c := by
  induction steps with
  | nil => rfl
  | cons s t ih =>
    rw [List.foldl_cons]
    have hcond : ¬ (c.id == s.2) = true := by
      simp only [beq_iff_eq]
      intro he
      exact h s (List.mem_cons_self _ _) he.symm
    have hs : reorderStep columnID c s = c := by
      unfold reorderStep
      rw [if_neg hcond]
    rw [hs]
    exact ih (fun s hs => h s (List.mem_cons_of_mem _ hs))

theorem snd_mem_of_mem_enumFrom (l : List Nat) (n : Nat) (s : Nat × Nat)
    (h : s ∈ List.enumFrom n l) : s.2 ∈ l := by
  induction l generalizing n with
  | nil => simp [List.enumFrom] at h
  | cons a t ih =>
    rcases List.mem_cons.mp h with rfl | ht
    · exact List.mem_cons_self _ _
    · exact List.mem_cons_of_mem _ (ih (n + 1) ht)

theorem foldCard_enumFrom (columnID : Nat) (ids : List Nat) (n i : Nat) (c : Card)
    (hnd : ids.Nodup) (hi : ids.get? i = some c.id) :
    ((List.enumFrom n ids).foldl (fun c s => reorderStep columnID c s) c).position =
      ((n + i : Nat) : Int) ∧
    ((List.enumFrom n ids).foldl (fun c s => reorderStep columnID c s) c).columnId =
      columnID := by
  induction ids generalizing n i c with
  | nil => simp at hi
  | cons a t ih =>
    rw [List.enumFrom, List.foldl_cons]
    rcases List.nodup_cons.mp hnd with ⟨hna, hndt⟩
    cases i with
    | zero =>
      rw [List.get?] at hi
      injection hi with hi
      have hstep : reorderStep columnID c (n, a) =
          { c with position := (n : Int), columnId := columnID } := by
        unfold reorderStep
        rw [if_pos]
        simp [hi]
      rw [hstep]
      have hskip : List.foldl (fun c s => reorderStep columnID c s)
          { c with position := (n : Int), columnId := columnID }
          (List.enumFrom (n + 1) t) =
          { c with position := (n : Int), columnId := columnID } := by
        apply foldCard_skip
        intro s hs he
        apply hna
        have h2 : s.2 ∈ t := snd_mem_of_mem_enumFrom t (n + 1) s hs
        have h3 : s.2 = c.id := he
        rw [h3, ← hi] at h2
        exact h2
      rw [hskip]
      simp
    | succ j =>
      rw [List.get?] at hi
      have hne : a ≠ c.id := by
        intro he
        exact hna (he ▸ List.get?_mem hi)
      have hstep : reorderStep columnID c (n, a) = c := by
        unfold reorderStep
        rw [if_neg]
        simp only [beq_iff_eq]
        exact fun h => hne h.symm
      rw [hstep]
      have := ih (n + 1) j c hndt hi
      refine ⟨?_, this.2⟩
      rw [this.1]
      congr 1
      omega

/-- C3: for a reorder request whose `ordered_card_ids` are pairwise distinct,
every card whose id appears at index `i` of the array ends with position `i`
and column id `column_id`, and the request succeeds with status 200.  (The
payload type has no numeric position field at all: the array index is the only
position information.) -/
theorem C3_amended (db : DB) (p : ReorderPayload) (hnd : p.orderedCardIDs.Nodup)
    (i cardID : Nat) (hi : p.orderedCardIDs.get? i = some cardID)
    (c : Card) (hc : c ∈ (reorderCards db p).1.cards) (hcid : c.id = cardID) :
    c.position = (i : Int) ∧ c.columnId = p.columnID ∧ (reorderCards db p).2 = 200 := by
  have hcards : (reorderCards db p).1.cards =
      db.cards.map (fun c => (p.orderedCardIDs.enum).foldl
        (fun c s => reorderStep p.columnID c s) c) := by
    show (List.foldl _ db.cards _) = _
    exact reorder_foldl_map p.columnID p.orderedCardIDs.enum db.cards
  rw [hcards] at hc
  rcases List.mem_map.mp hc with ⟨c0, hc0, hfold⟩
  have hid0 : c.id = c0.id := by
    rw [← hfold]
    exact foldCard_id p.columnID p.orderedCardIDs.enum c0
  have hi0 : p.orderedCardIDs.get? i = some c0.id := by
    rw [← hid0, hcid]
    exact hi
  have henum : p.orderedCardIDs.enum = List.enumFrom 0 p.orderedCardIDs := rfl
  have hmain := foldCard_enumFrom p.columnID p.orderedCardIDs 0 i c0 hnd hi0
  rw [henum] at hfold
  rw [← hfold]
  refine ⟨?_, hmain.2, rfl⟩
  rw [hmain.1]
  simp

/-- C3 fails as stated: the request naming card 7 at both index 0 and index 1
succeeds, but the card ends at position 1, not at position 0 as index 0
demands. -/
theorem C3_counterexample :
    ¬ (∀ (i cardID : Nat), c3DupPayload.orderedCardIDs.get? i = some cardID →
        ∀ c ∈ (reorderCards c3DB c3DupPayload).1.cards, c.id = cardID →
          c.position = (i : Int)) := by
  intro h
  have := h 0 7 (by decide)
    { id := 7, columnId := 5, title := "A", description := "",
      assignedTo := "", priority := "media", dueDate := none, position := 1 }
    (by decide) rfl
  exact absurd this (by decide)

/-- C3 witness: the amended statement evaluated on the duplicate-free request
`[7]` for column 5. -/
theorem C3_witness :
    ({ id := 7, columnId := 5, title := "A", description := "", assignedTo := "",
       priority := "media", dueDate := none, position := 0 } : Card).position = (0 : Int) ∧
    ({ id := 7, columnId := 5, title := "A", description := "", assignedTo := "",
       priority := "media", dueDate := none, position := 0 } : Card).columnId =
      c3Payload.columnID ∧
    (reorderCards c3DB c3Payload).2 = 200 :=
  C3_amended c3DB c3Payload (by decide) 0 7 (by decide)
    { id := 7, columnId := 5, title := "A", description := "",
      assignedTo := "", priority := "media", dueDate := none, position := 0 }
    (by decide) rfl

/-- C10 witness: on a store with two public boards (created at 20 and 30) the
listing returns exactly the newer board 3. -/
theorem C10_witness :
    ∃ r, getPublicBoards c7DB = [r] ∧ r ∈ c7DB.boards ∧ r.isPublic = true ∧
      ∀ b2 ∈ c7DB.boards, b2.isPublic = true → b2.createdAt ≤ r.createdAt :=
  (C10_theorem c7DB).2
    { id := 2, title := "Pub", description := "", ownerId := "alice",
      createdAt := 20, color := "c", isPublic := true } (by decide) rfl

theorem checkBoardPermission_public (db : DB) (userID : String) (boardID : Nat) (b : Board)
    (hb : db.boards.find? (fun x => x.id == boardID) = some b) (hpub : b.isPublic = true) :
    checkBoardPermission db userID boardID = true := by
  unfold checkBoardPermission
  rw [hb]
  simp [hpub]

theorem mem_insertByPosition (a c : Column) (l : List Column) :
    a ∈ insertByPosition c l ↔ a = c ∨ a ∈ l := by
  induction l with
  | nil => simp [insertByPosition]
  | cons d ds ih =>
    unfold insertByPosition
    split
    · simp [or_comm, or_assoc, or_left_comm]
    · simp [ih]
      tauto

theorem mem_sortByPosition (a : Column) (l : List Column) :
    a ∈ sortByPosition l ↔ a ∈ l := by
  induction l with
  | nil => simp [sortByPosition]
  | cons d ds ih =>
    show a ∈ insertByPosition d (sortByPosition ds) ↔ _
    rw [mem_insertByPosition]
    simp [ih]

theorem mem_boardColumnsSorted (a : Column) (db : DB) (boardID : Nat) :
    a ∈ boardColumnsSorted db boardID ↔ a ∈ db.columns ∧ a.boardId = boardID := by
  unfold boardColumnsSorted
  rw [mem_sortByPosition, List.mem_filter]
  simp

/-- C9: reading the columns of a public board dispatches to the write-capable
public read: when the board's columns lack a column titled "Solucionado"
and/or "Não Solucionado" (title compared lowercased), the missing column(s)
are inserted at successive `max(position)+1` positions during the read and the
response includes them; only when both are present is the read a pure read. -/
theorem C9_theorem (db : DB) (userID : String) (boardID : Nat) (b : Board)
    (hb : db.boards.find? (fun x => x.id == boardID) = some b)
    (hpub : b.isPublic = true) :
    getColumns db userID boardID = getPublicBoardColumns db boardID ∧
    (hasTitleCI (boardColumnsSorted db boardID) "solucionado" = false →
     hasTitleCI (boardColumnsSorted db boardID) "não solucionado" = false →
      (getPublicBoardColumns db boardID).1.columns = db.columns ++
        [{ id := db.nextId, boardId := boardID, title := "Solucionado",
           position := maxColPosition (boardColumnsSorted db boardID) + 1, color := "#3fb950" },
         { id := db.nextId + 1, boardId := boardID, title := "Não Solucionado",
           position := maxColPosition (boardColumnsSorted db boardID) + 1 + 1,
           color := "#f85149" }] ∧
      { id := db.nextId, boardId := boardID, title := "Solucionado",
        position := maxColPosition (boardColumnsSorted db boardID) + 1, color := "#3fb950" } ∈
        (getPublicBoardColumns db boardID).2.2 ∧
      { id := db.nextId + 1, boardId := boardID, title := "Não Solucionado",
        position := maxColPosition (boardColumnsSorted db boardID) + 1 + 1,
        color := "#f85149" } ∈ (getPublicBoardColumns db boardID).2.2) ∧
    (hasTitleCI (boardColumnsSorted db boardID) "solucionado" = false →
     hasTitleCI (boardColumnsSorted db boardID) "não solucionado" = true →
      (getPublicBoardColumns db boardID).1.columns = db.columns ++
        [{ id := db.nextId, boardId := boardID, title := "Solucionado",
           position := maxColPosition (boardColumnsSorted db boardID) + 1,
           color := "#3fb950" }] ∧
      { id := db.nextId, boardId := boardID, title := "Solucionado",
        position := maxColPosition (boardColumnsSorted db boardID) + 1, color := "#3fb950" } ∈
        (getPublicBoardColumns db boardID).2.2) ∧
    (hasTitleCI (boardColumnsSorted db boardID) "solucionado" = true →
     hasTitleCI (boardColumnsSorted db boardID) "não solucionado" = false →
      (getPublicBoardColumns db boardID).1.columns = db.columns ++
        [{ id := db.nextId, boardId := boardID, title := "Não Solucionado",
           position := maxColPosition (boardColumnsSorted db boardID) + 1,
           color := "#f85149" }] ∧
      { id := db.nextId, boardId := boardID, title := "Não Solucionado",
        position := maxColPosition (boardColumnsSorted db boardID) + 1, color := "#f85149" } ∈
        (getPublicBoardColumns db boardID).2.2) ∧
    (hasTitleCI (boardColumnsSorted db boardID) "solucionado" = true →
     hasTitleCI (boardColumnsSorted db boardID) "não solucionado" = true →
      (getPublicBoardColumns db boardID).1 = db) := by
  refine ⟨?_, ?_, ?_, ?_, ?_⟩
  · have hperm := checkBoardPermission_public db userID boardID b hb hpub
    unfold getColumns
    rw [hperm]
    simp only [Bool.not_true, Bool.false_eq_true, if_false]
    rw [hb]
    simp [hpub]
  · intro h1 h2
    simp only [getPublicBoardColumns, h1, h2, Bool.false_eq_true, if_false, Bool.not_false,
      Bool.or_self, if_true]
    refine ⟨by simp, ?_, ?_⟩
    · rw [mem_boardColumnsSorted]
      constructor
      · simp
      · rfl
    · rw [mem_boardColumnsSorted]
      constructor
      · simp
      · rfl
  · intro h1 h2
    simp only [getPublicBoardColumns, h1, h2, Bool.false_eq_true, if_false, if_true,
      Bool.not_false, Bool.not_true, Bool.true_or, Bool.or_true, Bool.false_or]
    refine ⟨by simp, ?_⟩
    rw [mem_boardColumnsSorted]
    constructor
    · simp
    · rfl
  · intro h1 h2
    simp only [getPublicBoardColumns, h1, h2, Bool.false_eq_true, if_false, if_true,
      Bool.not_false, Bool.not_true, Bool.true_or, Bool.or_true, Bool.false_or]
    refine ⟨by simp, ?_⟩
    rw [mem_boardColumnsSorted]
    constructor
    · simp
    · rfl
  · intro h1 h2
    simp only [getPublicBoardColumns, h1, h2, if_true, Bool.not_true, Bool.or_self,
      Bool.false_eq_true, if_false]

/-- C9 witness: on a public board whose single column "Entrada" lacks both
status columns, the read inserts them at positions 1 and 2 and returns them. -/
theorem C9_witness :
    getColumns c9DB "anyone" 1 = getPublicBoardColumns c9DB 1 ∧
    (getPublicBoardColumns c9DB 1).1.columns = c9DB.columns ++
      [{ id := c9DB.nextId, boardId := 1, title := "Solucionado",
         position := maxColPosition (boardColumnsSorted c9DB 1) + 1, color := "#3fb950" },
       { id := c9DB.nextId + 1, boardId := 1, title := "Não Solucionado",
         position := maxColPosition (boardColumnsSorted c9DB 1) + 1 + 1,
         color := "#f85149" }] := by
  have h := C9_theorem c9DB "anyone" 1
    { id := 1, title := "Triage", description := "", ownerId := "o",
      createdAt := 0, color := "c", isPublic := true } (by decide) rfl
  exact ⟨h.1, (h.2.1 (by decide) (by decide)).1⟩

/-- C1 fails as stated: user `"mallory"` is denied by the permission resolver
on private board 1, yet the update-card and reorder handlers — which never
consult the resolver and never read the caller's identity beyond
authentication — both succeed with status 200 and write to the card rows. -/
theorem C1_counterexample :
    checkBoardPermission c1DB "mallory" 1 = false ∧
    (updateCard c1DB 3 c1Body).2 = 200 ∧
    (updateCard c1DB 3 c1Body).1.cards ≠ c1DB.cards ∧
    (reorderCards c1DB { columnID := 2, orderedCardIDs := [3] }).2 = 200 ∧
    (reorderCards c1DB { columnID := 2, orderedCardIDs := [3] }).1.cards ≠ c1DB.cards := by
  refine ⟨by decide, by decide, by decide, by decide, by decide⟩

/-- C1: a user the permission resolver denies on a board is rejected with 403
and no write by the operations that consult the resolver — get-columns,
get-cards and create-card; the remaining mutating card/column operations
perform no permission check at all. -/
theorem C1_amended (db : DB) (userID : String) (boardID columnID : Nat)
    (hcol : getBoardIDFromColumn db columnID = some boardID)
    (hperm : checkBoardPermission db userID boardID = false) :
    getColumns db userID boardID = (db, 403, []) ∧
    getCards db userID columnID = (db, 403, []) ∧
    ∀ body, createCard db userID columnID body = (db, 403) := by
  refine ⟨?_, ?_, ?_⟩
  · unfold getColumns
    rw [hperm]
    simp only [Bool.not_false, if_true]
  · unfold getCards
    rw [hcol]
    simp only [hperm, Bool.not_false, if_true]
  · intro body
    unfold createCard
    rw [hcol]
    simp only [hperm, Bool.not_false, if_true]

/-- C1 witness: the amended statement evaluated for the outsider `"mallory"`
on private board 1 and its column 2. -/
theorem C1_witness :
    getColumns c1DB "mallory" 1 = (c1DB, 403, []) ∧
    getCards c1DB "mallory" 2 = (c1DB, 403, []) ∧
    createCard c1DB "mallory" 2 c1Body = (c1DB, 403) := by
  have h := C1_amended c1DB "mallory" 1 2 (by decide) (by decide)
  exact ⟨h.1, h.2.1, h.2.2 c1Body⟩

theorem listMax?_isSome (l : List Int) (h : l ≠ []) : ∃ m, listMax? l = some m := by
  cases hm : listMax? l with
  | none => exact absurd ((listMax?_eq_none_iff l).mp hm) h
  | some m => exact ⟨m, rfl⟩

theorem preserves_of_columns_eq (db db' : DB) (bid : Nat)
    (hcols : db'.columns = db.columns) (hnext : db.nextId ≤ db'.nextId)
    (h : ColsWF db ∧ DistinctColPositions db bid) :
    ColsWF db' ∧ DistinctColPositions db' bid := by
  obtain ⟨⟨h1, h2⟩, h3⟩ := h
  refine ⟨⟨by rw [hcols]; exact h1, ?_⟩, ?_⟩
  · intro c hc
    rw [hcols] at hc
    exact lt_of_lt_of_le (h2 c hc) hnext
  · unfold DistinctColPositions boardCols at h3 ⊢
    rw [hcols]
    exact h3

theorem createCard_frame (db : DB) (userID : String) (columnID : Nat) (body : CardInput) :
    (createCard db userID columnID body).1.columns = db.columns ∧
    db.nextId ≤ (createCard db userID columnID body).1.nextId := by
  unfold createCard
  split
  · exact ⟨rfl, le_refl _⟩
  · split
    · exact ⟨rfl, le_refl _⟩
    · constructor
      · split
        · split <;> rfl
        · rfl
      · split
        · split
          · exact Nat.le_succ _
          · exact Nat.le_succ _
        · exact Nat.le_succ _

theorem createColumn_eq (db : DB) (body : ColumnInput) (h : ¬ (body.boardId == 0) = true) :
    createColumn db body =
      ({ db with
         columns := db.columns ++
           [{ id := db.nextId, boardId := body.boardId, title := body.title,
              position := nextPositionScan ((db.columns.filter
                (fun c => c.boardId == body.boardId)).map (fun c => c.position)),
              color := body.color }],
         nextId := db.nextId + 1 }, 201) := by
  unfold createColumn
  rw [if_neg h]

theorem createColumn_preserves (db : DB) (body : ColumnInput) (bid : Nat)
    (h : ColsWF db ∧ DistinctColPositions db bid) :
    ColsWF (createColumn db body).1 ∧ DistinctColPositions (createColumn db body).1 bid := by
  obtain ⟨⟨hnd, hlt⟩, hdist⟩ := h
  by_cases hz : (body.boardId == 0) = true
  · have : createColumn db body = (db, 400) := by unfold createColumn; rw [if_pos hz]
    rw [this]
    exact ⟨⟨hnd, hlt⟩, hdist⟩
  · rw [createColumn_eq db body hz]
    dsimp only
    constructor
    · constructor
      · rw [List.map_append, List.nodup_append]
        refine ⟨hnd, List.nodup_singleton _, ?_⟩
        intro x hx hx2
        simp only [List.map_cons, List.map_nil, List.mem_singleton] at hx2
        subst hx2
        rcases List.mem_map.mp hx with ⟨c, hc, hcid⟩
        have := hlt c hc
        omega
      · intro c hc
        rcases List.mem_append.mp hc with h1 | h1
        · exact Nat.lt_succ_of_lt (hlt c h1)
        · simp only [List.mem_singleton] at h1
          subst h1
          exact Nat.lt_succ_self _
    · unfold DistinctColPositions boardCols at hdist ⊢
      simp only
      rw [List.filter_append]
      by_cases hb : (body.boardId == bid) = true
      · have hb' : body.boardId = bid := by simpa using hb
        have hfil : List.filter (fun c => c.boardId == bid)
            [({ id := db.nextId, boardId := body.boardId, title := body.title,
                position := nextPositionScan ((db.columns.filter
                  (fun c => c.boardId == body.boardId)).map (fun c => c.position)),
                color := body.color } : Column)] =
            [{ id := db.nextId, boardId := body.boardId, title := body.title,
               position := nextPositionScan ((db.columns.filter
                 (fun c => c.boardId == body.boardId)).map (fun c => c.position)),
               color := body.color }] := by
          simp [List.filter, hb]
        rw [hfil, List.pairwise_append]
        refine ⟨hdist, List.pairwise_singleton _ _, ?_⟩
        intro a ha c hc
        simp only [List.mem_singleton] at hc
        subst hc
        simp only
        rw [hb']
        have hmem : a.position ∈ (db.columns.filter
            (fun c => c.boardId == bid)).map (fun c => c.position) :=
          List.mem_map_of_mem _ ha
        have hne : (db.columns.filter (fun c => c.boardId == bid)).map
            (fun c => c.position) ≠ [] := by
          intro he
          rw [he] at hmem
          simp at hmem
        rcases listMax?_isSome _ hne with ⟨m, hm⟩
        have hle := le_listMax? _ _ _ hmem hm
        unfold nextPositionScan
        rw [hm]
        simp only [Option.getD_some]
        omega
      · have hfil : List.filter (fun c => c.boardId == bid)
            [({ id := db.nextId, boardId := body.boardId, title := body.title,
                position := nextPositionScan ((db.columns.filter
                  (fun c => c.boardId == body.boardId)).map (fun c => c.position)),
                color := body.color } : Column)] = [] := by
          simp [List.filter, hb]
        rw [hfil, List.append_nil]
        exact hdist

theorem filter_map_pres (f : Column → Column) (hf : ∀ c, (f c).boardId = c.boardId)
    (l : List Column) (bid : Nat) :
    (l.map f).filter (fun c => c.boardId == bid) =
    (l.filter (fun c => c.boardId == bid)).map f := by
  induction l with
  | nil => rfl
  | cons a t ih =>
    simp only [List.map_cons, List.filter_cons, hf a]
    split
    · simp [ih]
    · exact ih

theorem filter_swap (p q : Column → Bool) (l : List Column) :
    (l.filter q).filter p = (l.filter p).filter q := by
  induction l with
  | nil => rfl
  | cons a t ih =>
    by_cases hp : p a <;> by_cases hq : q a <;>
      simp [List.filter_cons, hp, hq, ih]

theorem deleteColumn_eq_some (db : DB) (columnID : Nat) (col : Column)
    (hcards : ¬ 0 < (db.cards.filter (fun c => c.columnId == columnID)).length)
    (hcol : db.columns.find? (fun c => c.id == columnID) = some col) :
    deleteColumn db columnID =
      ({ db with
         columns := (db.columns.filter (fun c => !(c.id == columnID))).map
           (fun c => if c.boardId == col.boardId && col.position < c.position
                     then { c with position := c.position - 1 } else c) }, 200) := by
  unfold deleteColumn
  rw [if_neg hcards, hcol]

theorem deleteColumn_preserves (db : DB) (columnID bid : Nat)
    (h : ColsWF db ∧ DistinctColPositions db bid) :
    ColsWF (deleteColumn db columnID).1 ∧
    DistinctColPositions (deleteColumn db columnID).1 bid := by
  obtain ⟨⟨hnd, hlt⟩, hdist⟩ := h
  by_cases hcards : 0 < (db.cards.filter (fun c => c.columnId == columnID)).length
  · have : deleteColumn db columnID = (db, 400) := by
      unfold deleteColumn
      rw [if_pos hcards]
    rw [this]
    exact ⟨⟨hnd, hlt⟩, hdist⟩
  · cases hcol : db.columns.find? (fun c => c.id == columnID) with
    | none =>
      have : deleteColumn db columnID = (db, 404) := by
        unfold deleteColumn
        rw [if_neg hcards, hcol]
      rw [this]
      exact ⟨⟨hnd, hlt⟩, hdist⟩
    | some col =>
      rw [deleteColumn_eq_some db columnID col hcards hcol]
      have hcolmem : col ∈ db.columns := List.mem_of_find?_eq_some hcol
      have hcolid : col.id = columnID := by
        have := List.find?_some hcol
        simpa using this
      have hfid : ∀ c : Column,
          (if c.boardId == col.boardId && col.position < c.position
           then { c with position := c.position - 1 } else c).id = c.id := by
        intro c
        split <;> rfl
      have hfb : ∀ c : Column,
          (if c.boardId == col.boardId && col.position < c.position
           then { c with position := c.position - 1 } else c).boardId = c.boardId := by
        intro c
        split <;> rfl
      constructor
      · constructor
        · simp only
          rw [List.map_map]
          have heq : (db.columns.filter (fun c => !(c.id == columnID))).map
              ((fun c : Column => c.id) ∘ (fun c =>
                if c.boardId == col.boardId && col.position < c.position
                then { c with position := c.position - 1 } else c)) =
              (db.columns.filter (fun c => !(c.id == columnID))).map (fun c => c.id) := by
            apply List.map_congr_left
            intro c _
            exact hfid c
          rw [heq]
          exact hnd.sublist ((db.columns.filter_sublist).map _)
        · intro c hc
          simp only at hc
          rcases List.mem_map.mp hc with ⟨c0, hc0, hback⟩
          have : c.id = c0.id := by rw [← hback]; exact hfid c0
          rw [this]
          exact hlt c0 (List.mem_of_mem_filter hc0)
      · unfold DistinctColPositions boardCols at hdist ⊢
        simp only
        rw [filter_map_pres _ hfb, filter_swap, List.pairwise_map]
        have hsub : List.Pairwise (fun c d : Column => c.position ≠ d.position)
            ((db.columns.filter (fun c => c.boardId == bid)).filter
              (fun c => !(c.id == columnID))) :=
          List.Pairwise.sublist (List.filter_sublist _) hdist
        apply List.Pairwise.imp_of_mem ?_ hsub
        intro a b ha hb hab
        have ha' := List.mem_filter.mp ha
        have hb' := List.mem_filter.mp hb
        have haid : a.id ≠ columnID := by simpa using ha'.2
        have hbid2 : b.id ≠ columnID := by simpa using hb'.2
        have haboard : a.boardId = bid := by
          have := (List.mem_filter.mp ha'.1).2
          simpa using this
        have hbboard : b.boardId = bid := by
          have := (List.mem_filter.mp hb'.1).2
          simpa using this
        show (if (a.boardId == col.boardId && decide (col.position < a.position)) = true
              then ({ a with position := a.position - 1 } : Column) else a).position ≠
             (if (b.boardId == col.boardId && decide (col.position < b.position)) = true
              then ({ b with position := b.position - 1 } : Column) else b).position
        by_cases hcb : col.boardId = bid
        · have hcolb : col ∈ db.columns.filter (fun c => c.boardId == bid) :=
            List.mem_filter.mpr ⟨hcolmem, by simp [hcb]⟩
          have hsymm : Symmetric (fun c d : Column => c.position ≠ d.position) :=
            fun _ _ hne => hne.symm
          have hane : a ≠ col := fun he => haid (by rw [he, hcolid])
          have hbne : b ≠ col := fun he => hbid2 (by rw [he, hcolid])
          have hapos : a.position ≠ col.position :=
            hdist.forall hsymm ha'.1 hcolb hane
          have hbpos : b.position ≠ col.position :=
            hdist.forall hsymm hb'.1 hcolb hbne
          have hca : (a.boardId == col.boardId) = true := by simp [haboard, hcb]
          have hcbb2 : (b.boardId == col.boardId) = true := by simp [hbboard, hcb]
          by_cases h1 : (a.boardId == col.boardId && decide (col.position < a.position)) = true <;>
            by_cases h2 : (b.boardId == col.boardId && decide (col.position < b.position)) = true
          · rw [if_pos h1, if_pos h2]
            show a.position - 1 ≠ b.position - 1
            omega
          · rw [if_pos h1, if_neg h2]
            simp only [hca, Bool.true_and, decide_eq_true_eq] at h1
            simp only [hcbb2, Bool.true_and, decide_eq_true_eq] at h2
            show a.position - 1 ≠ b.position
            omega
          · rw [if_neg h1, if_pos h2]
            simp only [hca, Bool.true_and, decide_eq_true_eq] at h1
            simp only [hcbb2, Bool.true_and, decide_eq_true_eq] at h2
            show a.position ≠ b.position - 1
            omega
          · rw [if_neg h1, if_neg h2]
            exact hab
        · have hca : (a.boardId == col.boardId) = false := by
            simp only [beq_eq_false_iff_ne, ne_eq]
            rw [haboard]
            exact fun he => hcb he.symm
          have hcbb2 : (b.boardId == col.boardId) = false := by
            simp only [beq_eq_false_iff_ne, ne_eq]
            rw [hbboard]
            exact fun he => hcb he.symm
          rw [if_neg (by simp [hca]), if_neg (by simp [hcbb2])]
          exact hab

theorem createBoard_fresh (db : DB) (userID : String) (body : BoardInput) (now : Nat)
    (db1 : DB) (bid : Nat)
    (hwf : ColsWF db) (hfresh : ∀ c ∈ db.columns, c.boardId ≠ db.nextId)
    (h : createBoard db userID body now = (db1, 201, bid)) :
    ColsWF db1 ∧ DistinctColPositions db1 bid := by
  obtain ⟨hnd, hlt⟩ := hwf
  unfold createBoard at h
  by_cases ht : (body.title == "") = true
  · rw [if_pos ht] at h
    have h400 : (400 : Nat) = 201 := by
      have := congrArg (fun x => x.2.1) h
      simp at this
    exact absurd h400 (by decide)
  · rw [if_neg ht] at h
    have h1 := congrArg Prod.fst h
    have h2 := congrArg (fun x => x.2.2) h
    simp only at h1 h2
    subst h1
    subst h2
    constructor
    · constructor
      · simp only [List.map_append]
        rw [List.nodup_append]
        refine ⟨hnd, by simp, ?_⟩
        intro x hx hx2
        rcases List.mem_map.mp hx with ⟨c, hc, rfl⟩
        have := hlt c hc
        simp only [List.map_cons, List.map_nil, List.mem_cons, List.mem_singleton,
          List.not_mem_nil, or_false] at hx2
        omega
      · intro c hc
        rcases List.mem_append.mp hc with h1 | h1
        · have h4 : c.id < db.nextId + 4 := by
            have := hlt c h1
            omega
          exact h4
        · simp only [List.mem_cons, List.mem_singleton, List.not_mem_nil, or_false] at h1
          rcases h1 with rfl | rfl | rfl
          · have h4 : db.nextId + 1 < db.nextId + 4 := by omega
            exact h4
          · have h4 : db.nextId + 2 < db.nextId + 4 := by omega
            exact h4
          · have h4 : db.nextId + 3 < db.nextId + 4 := by omega
            exact h4
    · unfold DistinctColPositions boardCols
      simp only
      rw [List.filter_append]
      have hzero : db.columns.filter (fun c => c.boardId == db.nextId) = [] := by
        rw [List.filter_eq_nil_iff]
        intro c hc
        simp [hfresh c hc]
      rw [hzero, List.nil_append]
      simp [List.filter, List.Pairwise]

theorem steps_preserve (userID : String) (bid : Nat) (db db' : DB) (ops : List BoardOp)
    (hrun : Steps userID db ops db') :
    ColsWF db ∧ DistinctColPositions db bid →
    ColsWF db' ∧ DistinctColPositions db' bid := by
  induction hrun with
  | nil _ => exact id
  | cons db0 db1 db2 op ops code happ hcode hsteps ih =>
    intro h
    apply ih
    have hdb1 : db1 = (applyOp userID db0 op).1 := by rw [happ]
    cases op with
    | createCol body =>
      rw [hdb1]
      exact createColumn_preserves db0 body bid h
    | deleteCol columnID =>
      rw [hdb1]
      exact deleteColumn_preserves db0 columnID bid h
    | addCard columnID body =>
      rw [hdb1]
      exact preserves_of_columns_eq db0 _ bid (createCard_frame db0 userID columnID body).1
        (createCard_frame db0 userID columnID body).2 h
    | delCard cardID =>
      rw [hdb1]
      exact preserves_of_columns_eq db0 _ bid rfl (le_refl _) h
    | reorder p =>
      rw [hdb1]
      exact preserves_of_columns_eq db0 _ bid rfl (le_refl _) h

/-- C2: after any sequence of individually successful create/delete/reorder
requests starting from a freshly created board on a well-formed store, the
positions of the board's columns are pairwise distinct.  (They need not form
the full set `{0..count-1}` — see the counterexample — and card positions
enjoy neither guarantee.) -/
theorem C2_amended (db0 db1 db' : DB) (userID : String) (body : BoardInput) (now : Nat)
    (bid : Nat) (ops : List BoardOp)
    (hwf : ColsWF db0) (hfresh : ∀ c ∈ db0.columns, c.boardId ≠ db0.nextId)
    (hcreate : createBoard db0 userID body now = (db1, 201, bid))
    (hrun : Steps userID db1 ops db') :
    DistinctColPositions db' bid :=
  (steps_preserve userID bid db1 db' ops hrun
    (createBoard_fresh db0 userID body now db1 bid hwf hfresh hcreate)).2

/-- C2 fails as stated: (a) one successful create-card on the fresh board's
empty column 2 leaves that column's card positions at `[1]`, not the dense
set `{0}`; (b) successfully deleting all three seed columns and then creating
one leaves the board's column positions at `[1]`, not `{0}`. -/
theorem C2_counterexample :
    (Steps "u" freshDB [BoardOp.addCard 2 exCardInput] c2dbA ∧
     cardPositions c2dbA 2 = [1] ∧
     ¬ (cardPositions c2dbA 2).Perm
        (denseRange (c2dbA.cards.filter (fun c => c.columnId == 2)).length)) ∧
    (Steps "u" freshDB c2ColOps c2dbB ∧
     colPositions c2dbB 1 = [1] ∧
     ¬ (colPositions c2dbB 1).Perm (denseRange (boardCols c2dbB 1).length)) := by
  refine ⟨⟨?_, by decide, ?_⟩, ⟨?_, by decide, ?_⟩⟩
  · exact Steps.cons freshDB c2dbA c2dbA (BoardOp.addCard 2 exCardInput) [] 201
      (by decide) (by decide) (Steps.nil c2dbA)
  · intro hperm
    have h1 : (1 : Int) ∈ cardPositions c2dbA 2 := by decide
    have := hperm.mem_iff.mp h1
    revert this
    decide
  · exact Steps.cons freshDB c2dbB1 c2dbB (BoardOp.deleteCol 2) _ 200 (by decide) (by decide)
      (Steps.cons c2dbB1 c2dbB2 c2dbB (BoardOp.deleteCol 3) _ 200 (by decide) (by decide)
        (Steps.cons c2dbB2 c2dbB3 c2dbB (BoardOp.deleteCol 4) _ 200 (by decide) (by decide)
          (Steps.cons c2dbB3 c2dbB c2dbB
            (BoardOp.createCol { boardId := 1, title := "Extra", color := "c" }) [] 201
            (by decide) (by decide) (Steps.nil c2dbB))))
  · intro hperm
    have h1 : (1 : Int) ∈ colPositions c2dbB 1 := by decide
    have := hperm.mem_iff.mp h1
    revert this
    decide

/-- C2 witness: the amended statement evaluated on the empty store, the
standard create-board request and the delete-all-then-create sequence. -/
theorem C2_witness : DistinctColPositions c2dbB 1 := by
  apply C2_amended emptyDB freshDB c2dbB "u" exBoardInput 5 1 c2ColOps
  · exact ⟨by decide, by decide⟩
  · intro c hc
    simp only [emptyDB] at hc
    exact absurd hc (List.not_mem_nil c)
  · decide
  · exact Steps.cons freshDB c2dbB1 c2dbB (BoardOp.deleteCol 2) _ 200 (by decide) (by decide)
      (Steps.cons c2dbB1 c2dbB2 c2dbB (BoardOp.deleteCol 3) _ 200 (by decide) (by decide)
        (Steps.cons c2dbB2 c2dbB3 c2dbB (BoardOp.deleteCol 4) _ 200 (by decide) (by decide)
          (Steps.cons c2dbB3 c2dbB c2dbB
            (BoardOp.createCol { boardId := 1, title := "Extra", color := "c" }) [] 201
            (by decide) (by decide) (Steps.nil c2dbB))))

end NM
